import Mathlib

/-!
Verification development for the barnstormers-feed scraper.

The definitions below are a shallow embedding of `src/scraper.py` (plus the
seen-file loader's JSON layer).  Python strings are modelled as Lean `String`
(lists of characters); Python `None`-able values as `Option`; machine-level
details (HTTP, SMTP, the filesystem) are modelled as explicit inputs to the
embedded `main`.  The source file's non-ASCII literals (its bullet, em
dash, ellipsis, pin, quote and chip marks, which the file stores as
double-encoded multi-character sequences) are reproduced here exactly,
character for character, via unicode escapes.  Python's `\s`, `\w` and
`str.isdigit` classes are modelled over the ASCII range, which covers every
literal the program manipulates.
-/

namespace Scraper

/-- Python whitespace class (`\s` and the default `str.strip` set), ASCII. -/
def isWsChar (c : Char) : Bool :=
  c = ' ' || c = '\t' || c = '\n' || c = '\r' || c = '\x0b' || c = '\x0c'

/-- `str.strip()` on the character list. -/
def stripList (cs : List Char) : List Char :=
  ((cs.dropWhile isWsChar).reverse.dropWhile isWsChar).reverse

/-- Python `str.strip()`. -/
def pyStrip (s : String) : String := ⟨stripList s.data⟩

/-- Python `str.rstrip()`. -/
def pyRstrip (s : String) : String := ⟨(s.data.reverse.dropWhile isWsChar).reverse⟩

/-- One pass of `re.sub(r"\s+", " ", ·)`: the flag records whether the
previous character was whitespace (so a run collapses to one space). -/
def collapseWsAux : Bool → List Char → List Char
  | _, [] => []
  | prevWs, c :: cs =>
    if isWsChar c then
      if prevWs then collapseWsAux true cs else ' ' :: collapseWsAux true cs
    else c :: collapseWsAux false cs

/-- `re.sub(r"\s+", " ", s).strip()` — the title normalisation used by the
parser. -/
def wsNorm (s : String) : String := pyStrip ⟨collapseWsAux false s.data⟩

/-- `re.sub(r"[ \t]+", " ", ·)` on the character list. -/
def collapseSpTabAux : Bool → List Char → List Char
  | _, [] => []
  | prevRun, c :: cs =>
    if c = ' ' || c = '\t' then
      if prevRun then collapseSpTabAux true cs else ' ' :: collapseSpTabAux true cs
    else c :: collapseSpTabAux false cs

/-- `re.sub(r"\n{3,}", "\n\n", ·)`: `pending` counts newlines seen but not yet
emitted; a run of three or more is emitted as exactly two. -/
def squeezeNlAux (pending : Nat) : List Char → List Char
  | [] => if pending ≥ 3 then ['\n', '\n'] else List.replicate pending '\n'
  | c :: cs =>
    if c = '\n' then squeezeNlAux (pending + 1) cs
    else
      (if pending ≥ 3 then ['\n', '\n'] else List.replicate pending '\n')
        ++ c :: squeezeNlAux 0 cs

/-- Python `str.startswith`. -/
def pyStartswith (s pre : String) : Bool := pre.data.isPrefixOf s.data

/-- `pat in s` for character lists: some suffix has `pat` as a prefix. -/
def containsSub (pat : List Char) : List Char → Bool
  | [] => pat.isEmpty
  | c :: cs => pat.isPrefixOf (c :: cs) || containsSub pat cs

/-- Python `pat in s` (substring containment). -/
def strIn (pat s : String) : Bool := containsSub pat.data s.data

/-- `str.replace` scanning, fuelled by the input length (each step consumes at
least one character, so the fuel never runs out when initialised to the
length). -/
def replaceAux (pat rep : List Char) : Nat → List Char → List Char
  | _, [] => []
  | 0, cs => cs
  | fuel + 1, c :: cs =>
    if pat.isPrefixOf (c :: cs) && !pat.isEmpty then
      rep ++ replaceAux pat rep fuel (cs.drop (pat.length - 1))
    else c :: replaceAux pat rep fuel cs

/-- Python `s.replace(pat, rep)` for a non-empty pattern: non-overlapping,
left-to-right. -/
def pyReplace (s pat rep : String) : String :=
  ⟨replaceAux pat.data rep.data s.data.length s.data⟩

/-- `s.replace(p, rep)` for a single-character pattern (the form used by
`html_escape`): every occurrence of `p` becomes `rep`. -/
def replaceChar (p : Char) (rep : List Char) : List Char → List Char
  | [] => []
  | c :: cs => (if c = p then rep else [c]) ++ replaceChar p rep cs

/-- Python `str.isdigit()` on ASCII: non-empty and all decimal digits. -/
def isDigitStr (s : String) : Bool := !s.data.isEmpty && s.data.all (·.isDigit)

/-- Python `int(·)` on an all-digit string. -/
def intVal (s : String) : Nat :=
  s.data.foldl (fun a c => a * 10 + (c.toNat - 48)) 0

/-- Python `str.lower()`, ASCII. -/
def pyLower (s : String) : String := ⟨s.data.map Char.toLower⟩

/-- Decimal digits of a natural number, fuelled (so that it reduces in the
kernel); models Python `str(n)` for `n ≥ 0`. -/
def natDigitsAux : Nat → Nat → List Char
  | 0, _ => []
  | fuel + 1, n =>
    if n < 10 then [Char.ofNat (48 + n)]
    else natDigitsAux fuel (n / 10) ++ [Char.ofNat (48 + n % 10)]

/-- Python `str(n)` for a natural number. -/
def pyStrNat (n : Nat) : String := ⟨natDigitsAux (n + 1) n⟩

/-- Python `sep.join(xs)`. -/
def pyJoin (sep : String) : List String → String
  | [] => ""
  | [x] => x
  | x :: y :: rest => x ++ sep ++ pyJoin sep (y :: rest)

/-- Python `a or b` for strings (`a` if non-empty, else `b`). -/
def pyOrS (a b : String) : String := if a = "" then b else a

/-- Truthiness of an optional string: `None` and `""` are falsy. -/
def pyTruthyOpt : Option String → Bool
  | none => false
  | some s => !(s = "")

/-- Python `a or b` where `a` is an optional string and `b` a string. -/
def pyOrD (a : Option String) (b : String) : String :=
  match a with
  | none => b
  | some s => if s = "" then b else s

/-- Python `a or b` on two optional strings (empty string counts as falsy). -/
def pyOrOpt (a b : Option String) : Option String :=
  if pyTruthyOpt a then a else b

/-- Python `a or b` on two lists (an empty list is falsy). -/
def pyOrList (a b : List String) : List String := if a.isEmpty then b else a

/-- `\w` of Python `re`, ASCII: letters, digits, underscore. -/
def isWordChar (c : Char) : Bool := c.isAlphanum || c = '_'

/-- A `\b` word boundary between two (possibly absent) characters. -/
def boundaryB (prev next : Option Char) : Bool :=
  (match prev with | none => false | some c => isWordChar c)
    != (match next with | none => false | some c => isWordChar c)

/-- Python slice `s[:k]` for an integer bound `k` (negative counts from the
end). -/
def pySliceTo (s : String) (k : Int) : String :=
  if 0 ≤ k then ⟨s.data.take k.toNat⟩
  else ⟨s.data.take (s.data.length - (-k).toNat)⟩

/-! ### The seen-set file (`load_seen`, lines 52-59)

The file on disk is modelled by its parse outcome: absent, present but not
valid JSON, or present with a JSON value.  A JSON value is modelled by
`PyJson` (numbers restricted to integers, which covers the identifier lists
the program writes).  `json.load` raises `json.JSONDecodeError` on malformed
content; `load_seen` does not catch it, which the embedding records as an
`Except.error`. -/

/-- A parsed JSON value as the Python objects `json.load` produces. -/
inductive PyJson where
  | null : PyJson
  | bool : Bool → PyJson
  | int : Int → PyJson
  | str : String → PyJson
  | list : List PyJson → PyJson
  | dict : List (String × PyJson) → PyJson

mutual

/-- Python `repr` of a JSON-shaped object (string escaping inside nested
`repr` is not modelled; top-level `str` of a string never reprs). -/
def pyRepr : PyJson → String
  | .null => "None"
  | .bool true => "True"
  | .bool false => "False"
  | .int n => toString n
  | .str s => "'" ++ s ++ "'"
  | .list l => "[" ++ pyJoin ", " (pyReprList l) ++ "]"
  | .dict l => "\x7b" ++ pyJoin ", " (pyReprDict l) ++ "\x7d"

/-- `repr` of the elements of a list. -/
def pyReprList : List PyJson → List String
  | [] => []
  | v :: vs => pyRepr v :: pyReprList vs

/-- `repr` of the entries of a dictionary. -/
def pyReprDict : List (String × PyJson) → List String
  | [] => []
  | (k, v) :: vs => ("'" ++ k ++ "': " ++ pyRepr v) :: pyReprDict vs

end

/-- Python `str(x)` on a JSON-shaped object. -/
def pyStr : PyJson → String
  | .str s => s
  | v => pyRepr v

/-- Content of the seen file: unparseable text, or a JSON value. -/
inductive SeenContent where
  | malformed : SeenContent
  | json : PyJson → SeenContent

/-- The persisted seen file: `none` when the file does not exist. -/
abbrev SeenFile := Option SeenContent

/-- The one error `load_seen` can raise (uncaught `json.JSONDecodeError`). -/
inductive LoadErr where
  | jsonDecode : LoadErr
deriving DecidableEq

/-- `load_seen` (scraper.py lines 52-59): absent file gives `[]`; malformed
content raises; a non-list JSON value gives `[]`; a list gives its elements
through `str`. -/
def load_seen : SeenFile → Except LoadErr (List String)
  | none => .ok []
  | some .malformed => .error .jsonDecode
  | some (.json v) =>
    match v with
    | .list l => .ok (l.map pyStr)
    | _ => .ok []

/-! ### Data model (`AdDetail`, lines 26-36) -/

/-- The `AdDetail` dataclass.  `images` is the tuple of image URLs. -/
structure AdDetail where
  ad_id : String
  title : String
  url : String
  price : Option String := none
  location : Option String := none
  posted : Option String := none
  description : Option String := none
  images : List String := []
deriving DecidableEq

/-! ### HTML as seen by the parser

BeautifulSoup navigation is embedded at the level of the data the parser
reads from a page.  An `Anchor` holds an `href` attribute (absent when the
tag has none) and the tag's `get_text(" ", strip=True)`.  A `ClassifiedDiv`
models one `div.classified_single`: its `data-adid` attribute, its first
`a.listing_header`, the `get_text`s of its first `span.body` (separator
`"\n"`) and first `span.contact` (separator `" "`), the whole div's
`get_text(" ", strip=True)`, and the `src` attributes of its
`img.thumbnail[src]` elements in document order.  A `ListingPage` holds the
page's `classified_single` divs and, for the fallback scan, every `<a>` with
an `href` in document order. -/

/-- An anchor tag: `href` attribute and extracted text. -/
structure Anchor where
  href : Option String
  text : String
deriving DecidableEq

/-- One `div.classified_single` as the parser reads it. -/
structure ClassifiedDiv where
  adid : Option String
  header : Option Anchor
  bodySpan : Option String
  divText : String
  contactSpan : Option String
  thumbSrcs : List String
deriving DecidableEq

/-- An anchor of the whole-page `find_all("a", href=True)` scan. -/
structure PageAnchor where
  href : String
  text : String
deriving DecidableEq

/-- A listing (or single-ad) page as the two scans read it. -/
structure ListingPage where
  containers : List ClassifiedDiv
  anchors : List PageAnchor
deriving DecidableEq

/-! ### URL helpers (lines 79-106) -/

/-- The site base URL. -/
def BASE : String := "https://www.barnstormers.com"

/-- `normalize_url` (lines 79-84). -/
def normalize_url (href : String) : String :=
  if pyStartswith href "http://" || pyStartswith href "https://" then href
  else if pyStartswith href "/" then BASE ++ href
  else BASE ++ "/" ++ href

/-- `thumbnail_to_large` (lines 94-106): two chained `str.replace` calls. -/
def thumbnail_to_large (url : String) : String :=
  if url = "" then url
  else pyReplace (pyReplace url "/thumbnail/thumbnail_image_" "/large/large_image_")
    "/thumbnail/" "/large/"

/-! ### Regex searches (lines 89-92)

Each compiled pattern of the source is embedded as a dedicated scanner over
the character list.  A scanner tries every start position from the left
(`re.search` returns the leftmost match) and, at a position, follows the
pattern's own backtracking order, so the returned capture group is the one
Python produces. -/

/-- Attempt `PRICE_RE`'s group at one start position, after the digit/comma
run has been computed: try capture lengths from `ℓ` downwards (the greedy
`[\d,]+`), preferring the optional `\.\d{2}` (greedy `?`), and require the
closing `\b`. -/
def priceCand (rest2 : List Char) : Nat → Option (List Char)
  | 0 => none
  | ℓ + 1 =>
    let cand := rest2.take (ℓ + 1)
    let after := rest2.drop (ℓ + 1)
    let withDec : Option (List Char) :=
      match after with
      | '.' :: d1 :: d2 :: tail =>
        if d1.isDigit && d2.isDigit && boundaryB (some d2) tail.head? then
          some (cand ++ ['.', d1, d2])
        else none
      | _ => none
    match withDec with
    | some r => some r
    | none =>
      if boundaryB cand.getLast? after.head? then some cand
      else priceCand rest2 ℓ

/-- Attempt `PRICE_RE` (`\bPrice\s+([\d,]+(?:\.\d{2})?)\b`, IGNORECASE) at one
start position. -/
def priceMatchAt (prev : Option Char) (cs : List Char) : Option (List Char) :=
  if !(boundaryB prev cs.head?) then none
  else
    match cs with
    | c1 :: c2 :: c3 :: c4 :: c5 :: rest =>
      if [c1, c2, c3, c4, c5].map Char.toLower = ['p', 'r', 'i', 'c', 'e'] then
        let wsRun := rest.takeWhile isWsChar
        if wsRun.isEmpty then none
        else
          let rest2 := rest.drop wsRun.length
          let run := rest2.takeWhile fun c => c.isDigit || c = ','
          priceCand rest2 run.length
      else none
    | _ => none

/-- Left-to-right scan for `PRICE_RE`. -/
def priceSearchAux (prev : Option Char) : List Char → Option (List Char)
  | [] => none
  | c :: cs =>
    match priceMatchAt prev (c :: cs) with
    | some r => some r
    | none => priceSearchAux (some c) cs

/-- `PRICE_RE.search(s)`, returning group 1. -/
def priceSearch (s : String) : Option String :=
  (priceSearchAux none s.data).map fun cs => ⟨cs⟩

/-- Attempt `POSTED_RE`
(`\bPosted\s+([A-Za-z]+\s+\d{1,2},\s+\d{4})\b`, case-sensitive) at one start
position. -/
def postedMatchAt (prev : Option Char) (cs : List Char) : Option (List Char) :=
  if !(boundaryB prev cs.head?) then none
  else
    match cs with
    | 'P' :: 'o' :: 's' :: 't' :: 'e' :: 'd' :: rest =>
      let ws1 := rest.takeWhile isWsChar
      if ws1.isEmpty then none
      else
        let r1 := rest.drop ws1.length
        let letters := r1.takeWhile Char.isAlpha
        if letters.isEmpty then none
        else
          let r2 := r1.drop letters.length
          let ws2 := r2.takeWhile isWsChar
          if ws2.isEmpty then none
          else
            let r3 := r2.drop ws2.length
            let day := r3.takeWhile Char.isDigit
            if day.isEmpty || day.length > 2 then none
            else
              match r3.drop day.length with
              | ',' :: r4 =>
                let ws3 := r4.takeWhile isWsChar
                if ws3.isEmpty then none
                else
                  let r5 := r4.drop ws3.length
                  let year := r5.takeWhile Char.isDigit
                  if year.length = 4
                      && boundaryB (year.getLast?) ((r5.drop 4).head?) then
                    some (letters ++ ws2 ++ day ++ [','] ++ ws3 ++ year)
                  else none
              | _ => none
    | _ => none

/-- Left-to-right scan for `POSTED_RE`. -/
def postedSearchAux (prev : Option Char) : List Char → Option (List Char)
  | [] => none
  | c :: cs =>
    match postedMatchAt prev (c :: cs) with
    | some r => some r
    | none => postedSearchAux (some c) cs

/-- `POSTED_RE.search(s)`, returning group 1. -/
def postedSearch (s : String) : Option String :=
  (postedSearchAux none s.data).map fun cs => ⟨cs⟩

/-- Character class `[A-Za-z .'-]` of `LOC_IN_BODY_RE`. -/
def locBodyCls (c : Char) : Bool :=
  c.isAlpha || c = ' ' || c = '.' || c = '\'' || c = '-'

/-- Attempt `LOC_IN_BODY_RE` (`\b([A-Za-z .'-]+,\s*[A-Z]{2})\b`) at one start
position. -/
def locBodyMatchAt (prev : Option Char) (cs : List Char) : Option (List Char) :=
  if !(boundaryB prev cs.head?) then none
  else
    let run := cs.takeWhile locBodyCls
    if run.isEmpty then none
    else
      match cs.drop run.length with
      | ',' :: r1 =>
        let ws := r1.takeWhile isWsChar
        match r1.drop ws.length with
        | u1 :: u2 :: r2 =>
          if u1.isUpper && u2.isUpper && boundaryB (some u2) r2.head? then
            some (run ++ [','] ++ ws ++ [u1, u2])
          else none
        | _ => none
      | _ => none

/-- Left-to-right scan for `LOC_IN_BODY_RE`. -/
def locBodySearchAux (prev : Option Char) : List Char → Option (List Char)
  | [] => none
  | c :: cs =>
    match locBodyMatchAt prev (c :: cs) with
    | some r => some r
    | none => locBodySearchAux (some c) cs

/-- `LOC_IN_BODY_RE.search(s)`, returning group 1. -/
def locBodySearch (s : String) : Option String :=
  (locBodySearchAux none s.data).map fun cs => ⟨cs⟩

/-- The `\s+United States\b` tail of `LOC_IN_CONTACT_RE` (IGNORECASE). -/
def locContactTail (cs : List Char) : Bool :=
  let ws := cs.takeWhile isWsChar
  if ws.isEmpty then false
  else
    let r := cs.drop ws.length
    let lit := "united states".data
    lit.isPrefixOf (r.map Char.toLower)
      && boundaryB (some 's') ((r.drop lit.length).head?)

/-- The lazy group `(.+?)` of `LOC_IN_CONTACT_RE`: grow the capture one
character at a time (`.` never matches a newline), checking the tail before
each extension, so the shortest capture wins. -/
def locContactCapAux (acc : List Char) : List Char → Option (List Char)
  | [] => none
  | c :: cs =>
    if !acc.isEmpty && locContactTail (c :: cs) then some acc.reverse
    else if c = '\n' then none
    else locContactCapAux (c :: acc) cs

/-- The greedy `\s+` after `located`: try consuming `w` whitespace
characters for `w` from the maximal run length down to 1 (the engine's
backtracking order), running the lazy capture after each choice. -/
def locContactTryWs (rest : List Char) : Nat → Option (List Char)
  | 0 => none
  | w + 1 =>
    match locContactCapAux [] (rest.drop (w + 1)) with
    | some r => some r
    | none => locContactTryWs rest w

/-- Attempt `LOC_IN_CONTACT_RE` (`\blocated\s+(.+?)\s+United States\b`,
IGNORECASE) at one start position. -/
def locContactMatchAt (prev : Option Char) (cs : List Char) : Option (List Char) :=
  if !(boundaryB prev cs.head?) then none
  else
    match cs with
    | c1 :: c2 :: c3 :: c4 :: c5 :: c6 :: c7 :: rest =>
      if [c1, c2, c3, c4, c5, c6, c7].map Char.toLower
          = ['l', 'o', 'c', 'a', 't', 'e', 'd'] then
        let ws := rest.takeWhile isWsChar
        if ws.isEmpty then none
        else locContactTryWs rest ws.length
      else none
    | _ => none

/-- Left-to-right scan for `LOC_IN_CONTACT_RE`. -/
def locContactSearchAux (prev : Option Char) : List Char → Option (List Char)
  | [] => none
  | c :: cs =>
    match locContactMatchAt prev (c :: cs) with
    | some r => some r
    | none => locContactSearchAux (some c) cs

/-- `LOC_IN_CONTACT_RE.search(s)`, returning group 1. -/
def locContactSearch (s : String) : Option String :=
  (locContactSearchAux none s.data).map fun cs => ⟨cs⟩

/-! ### Field normalisers (lines 109-128) -/

/-- `normalize_money` (lines 109-117). -/
def normalize_money (val : String) : String :=
  let s := pyStrip val
  if s = "" then s
  else
    let s := if strIn "." s then s else s ++ ".00"
    let s := if pyStartswith s "$" then s else "$" ++ s
    s

/-- `clean_desc` (lines 120-128). -/
def clean_desc (text : String) : String :=
  if text = "" then text
  else
    let t := pyReplace (pyReplace text "\r\n" "\n") "\r" "\n"
    let t := (⟨collapseSpTabAux false t.data⟩ : String)
    let t := (⟨squeezeNlAux 0 t.data⟩ : String)
    pyStrip t

/-! ### The container parser (lines 131-206) -/

/-- The image-deduplication loop of `parse_classified_single` (lines
188-194): keep first occurrences, skipping empties. -/
def dedupImages (seen : List String) : List String → List String
  | [] => []
  | u :: us =>
    if !(u = "") && !(seen.contains u) then u :: dedupImages (u :: seen) us
    else dedupImages seen us

/-- `parse_classified_single` (lines 131-206). -/
def parse_classified_single (d : ClassifiedDiv) : Option AdDetail :=
  let ad_id := pyStrip (d.adid.getD "")
  if !(isDigitStr ad_id) then none
  else
    match d.header with
    | none => none
    | some a =>
      if a.href.getD "" = "" then none
      else
        let title := wsNorm a.text
        if title.length < 3 then none
        else
          let url := normalize_url (a.href.getD "")
          let description := d.bodySpan.map clean_desc
          let price :=
            match description with
            | some dsc =>
              if !(dsc = "") then (priceSearch dsc).map normalize_money else none
            | none => none
          let posted := postedSearch d.divText
          let contact_text := d.contactSpan.getD ""
          let location :=
            match locContactSearch contact_text with
            | some loc => some (wsNorm loc)
            | none =>
              match description with
              | some dsc => if !(dsc = "") then locBodySearch dsc else none
              | none => none
          let imgs := ((d.thumbSrcs.map pyStrip).filter (fun s => !(s = ""))).map
            thumbnail_to_large
          let images := (dedupImages [] imgs).take 6
          some { ad_id, title, url, price, location, posted, description, images }

/-! ### Page extraction (lines 209-237) -/

/-- Insertion-ordered dictionary from ad id to record. -/
abbrev AdDict := List (String × AdDetail)

/-- `ad_id in ads` for the dictionary. -/
def dictContains (ads : AdDict) (k : String) : Bool := ads.any (fun p => p.1 = k)

/-- The structured scan: the first loop of `extract_ads_from_listing_page`
over `div.classified_single[data-adid]` (the selector requires the
attribute). -/
def structScan (p : ListingPage) : AdDict :=
  (p.containers.filter (fun d => d.adid.isSome)).foldl
    (fun ads d =>
      match parse_classified_single d with
      | some ad => if dictContains ads ad.ad_id then ads else ads ++ [(ad.ad_id, ad)]
      | none => ads)
    []

/-- `re.search(r"/classified-(\d+)-", s)` at one start position. -/
def classifiedIdAt (cs : List Char) : Option (List Char) :=
  if "/classified-".data.isPrefixOf cs then
    let rest := cs.drop "/classified-".data.length
    let ds := rest.takeWhile Char.isDigit
    if ds.isEmpty then none
    else
      match rest.drop ds.length with
      | '-' :: _ => some ds
      | _ => none
  else none

/-- Left-to-right scan for `/classified-(\d+)-`. -/
def classifiedIdSearchAux : List Char → Option (List Char)
  | [] => none
  | c :: cs =>
    match classifiedIdAt (c :: cs) with
    | some r => some r
    | none => classifiedIdSearchAux cs

/-- `re.search(r"/classified-(\d+)-", s)`, returning group 1. -/
def classifiedIdSearch (s : String) : Option String :=
  (classifiedIdSearchAux s.data).map fun cs => ⟨cs⟩

/-- One iteration of the fallback anchor loop of
`extract_ads_from_listing_page` (lines 221-235). -/
def fallbackStep (ads : AdDict) (a : PageAnchor) : AdDict :=
  if !(strIn "classified-" a.href) then ads
  else
    let full := normalize_url a.href
    match classifiedIdSearch full with
    | none => ads
    | some ad_id =>
      let title := wsNorm a.text
      if title.length < 3 then ads
      else if dictContains ads ad_id then ads
      else ads ++ [(ad_id, { ad_id, title, url := full })]

/-- The fallback anchor scan: the second loop of
`extract_ads_from_listing_page` (lines 220-235), starting from the (empty)
dictionary the structured scan produced. -/
def fallbackScan (anchors : List PageAnchor) (ads0 : AdDict) : AdDict :=
  anchors.foldl fallbackStep ads0

/-- `extract_ads_from_listing_page` (lines 209-237). -/
def extract_ads_from_listing_page (p : ListingPage) : AdDict :=
  let ads := structScan p
  if ads.isEmpty then fallbackScan p.anchors ads else ads

/-! ### Enrichment (lines 240-265) -/

/-- `enrich_from_classified_page` (lines 240-265), given the page fetched
from `ad.url`: find the container whose `data-adid` equals `ad.ad_id`, parse
it, and merge with `or`-fallbacks; otherwise return the ad unchanged. -/
def enrich_from_classified_page (ad : AdDetail) (page : ListingPage) : AdDetail :=
  match page.containers.find? (fun d => d.adid = some ad.ad_id) with
  | some d =>
    match parse_classified_single d with
    | some parsed =>
      { ad_id := ad.ad_id
        title := pyOrS parsed.title ad.title
        url := ad.url
        price := pyOrOpt parsed.price ad.price
        location := pyOrOpt parsed.location ad.location
        posted := pyOrOpt parsed.posted ad.posted
        description := pyOrOpt parsed.description ad.description
        images := pyOrList parsed.images ad.images }
    | none => ad
  | none => ad

/-! ### Configuration constants (lines 16-17, default values) -/

/-- `MAX_EMAIL_ITEMS` (default 50). -/
def MAX_EMAIL_ITEMS : Nat := 50

/-- `SEEN_CAP` (default 3000). -/
def SEEN_CAP : Nat := 3000

/-! ### Digest builders (lines 270-417) -/

/-- `sort_newest_first` (lines 270-271): stable sort, numerically descending
by id (`sorted` with `reverse=True`). -/
def sort_newest_first (ads : List AdDetail) : List AdDetail :=
  ads.mergeSort fun a b => decide (intVal b.ad_id ≤ intVal a.ad_id)

/-- `trim_seen_ids` (lines 274-275): stable numeric descending sort of the
set's elements, truncated to `cap`. -/
def trim_seen_ids (seen_ids : List String) (cap : Nat) : List String :=
  (seen_ids.mergeSort fun a b => decide (intVal b ≤ intVal a)).take cap

/-- The seen-set update of `main` (lines 472-474) as one operation: union the
old set with the newly sent ids, then trim. -/
def update_and_trim (seen_ids newly : List String) (cap : Nat) : List String :=
  trim_seen_ids ((seen_ids ++ newly).dedup) cap

/-- `build_digest_text` (lines 278-289). -/
def build_digest_text (new_ads : List AdDetail) : String :=
  let lines := ["New Barnstormers listings: " ++ pyStrNat new_ads.length, ""]
  let lines := lines ++ (new_ads.take MAX_EMAIL_ITEMS).flatMap fun ad =>
    ["\u201A\u00C4\u00A2 " ++ ad.title ++ " \u201A\u00C4\u00EE "
      ++ pyOrD ad.price "Price N/A", "  " ++ ad.url]
  let lines :=
    if new_ads.length > MAX_EMAIL_ITEMS then
      lines ++ ["", "(Showing first " ++ pyStrNat MAX_EMAIL_ITEMS ++ " of "
        ++ pyStrNat new_ads.length ++ ".)"]
    else lines
  pyJoin "\n" lines

/-- The character-list form of `html_escape`: three chained single-character
`str.replace` passes, `&` then `<` then `>`. -/
def escL (cs : List Char) : List Char :=
  replaceChar '>' "&gt;".data
    (replaceChar '<' "&lt;".data
      (replaceChar '&' "&amp;".data cs))

/-- `html_escape` (lines 292-293). -/
def html_escape (s : String) : String := ⟨escL s.data⟩

/-- `truncate` (lines 296-298).  The appended marker is the literal of
source line 298: the three-character sequence U+201A U+00C4 U+00B6 (the
file's double-encoded form of an ellipsis). -/
def truncate (s : String) (n : Nat) : String :=
  if s.length ≤ n then s else pyRstrip (pySliceTo s ((n : Int) - 1)) ++ "\u201A\u00C4\u00B6"

/-- `any(x in blob for x in keys)`. -/
def anyIn (blob : String) (keys : List String) : Bool :=
  keys.any fun k => strIn k blob

/-- `chips_from_text` (lines 301-322). -/
def chips_from_text (title : String) (desc : Option String) : List String :=
  let blob := pyLower (title ++ " " ++ pyOrD desc "")
  let chips :=
    (if anyIn blob ["ifr", "ifd", "gns", "waas", "430w", "navigator"]
      then ["\uF8FF\u00FC\u00DF\u2260 IFR"] else [])
    ++ (if strIn "autopilot" blob then ["\uF8FF\u00FC\u00A7\u00F1 AP"] else [])
    ++ (if anyIn blob ["rv-6a", "rv6a", "rv-7a", "rv7a", "rv-9a", "rv9a",
          "tricycle", "nose gear"] then ["\uF8FF\u00FC\u00F5\u00FB Nose"] else [])
    ++ (if strIn "tailwheel" blob || strIn "tail wheel" blob
          then ["\uF8FF\u00FC\u00F5\u00FB Tail"] else [])
    ++ (if anyIn blob ["constant speed", "cs prop", "hartzell", "governor"]
          then ["\u201A\u00F6\u00F4\u00D4\u220F\u00E8 CS"] else [])
    ++ (if anyIn blob ["fixed pitch", "ground adjustable prop", "sensenich",
          "whirlwind ground adjustable"] then ["\u201A\u00F6\u00F4\u00D4\u220F\u00E8 FP"] else [])
    ++ (if strIn "o-320" blob then ["\uF8FF\u00FC\u00DF\u221E O-320"] else [])
    ++ (if strIn "o-360" blob then ["\uF8FF\u00FC\u00DF\u221E O-360"] else [])
  chips.take 6

/-! The literal segments of `render_card`'s f-strings (lines 336-379), named
so that the escaping theorem can spell out the assembled card. -/

/-- Hero f-string, before `ad.url`. -/
def heroLitA : String := "\n        <a href=\""

/-- Hero f-string, between `ad.url` and `hero`. -/
def heroLitB : String := "\" style=\"text-decoration:none;\">\n          <img src=\""

/-- Hero f-string, after `hero`. -/
def heroLitC : String :=
  "\" width=\"100%\" style=\"display:block;width:100%;border-radius:12px;background:#eee;max-height:260px;\" />\n        </a>\n        "

/-- Hero placeholder (no images). -/
def heroLitNone : String :=
  "\n        <div style=\"width:100%;border-radius:12px;background:#eee;height:180px;\"></div>\n        "

/-- Card f-string, before `hero_html`. -/
def cardLit1 : String :=
  "\n    <table width=\"100%\" cellpadding=\"0\" cellspacing=\"0\" style=\"border:1px solid #e6e6e6;border-radius:14px;background:#fff;\">\n      <tr><td style=\"padding:10px;\">\n        "

/-- Card f-string, between `hero_html` and `price`. -/
def cardLit2 : String :=
  "\n\n        <div style=\"padding:10px 2px 2px;font-family:Arial,sans-serif;\">\n          <div style=\"font-size:20px;font-weight:800;color:#111;line-height:1.15;\">"

/-- Card f-string, between `price` and `title`. -/
def cardLit3 : String :=
  "</div>\n          <div style=\"font-size:14px;font-weight:700;color:#222;margin-top:4px;\">"

/-- Card f-string, between `title` and the meta line. -/
def cardLit4 : String :=
  "</div>\n\n          <div style=\"font-size:12px;color:#666;margin-top:6px;\">"

/-- Card f-string, between the meta line and `chips`. -/
def cardLit5 : String :=
  "</div>\n          <div style=\"font-size:12px;color:#666;margin-top:6px;\">"

/-- Card f-string, between `chips` and `desc_preview`. -/
def cardLit6 : String :=
  "</div>\n\n          <div style=\"font-size:12.5px;color:#333;margin-top:10px;line-height:1.35;\">\n            <strong>Description:</strong> "

/-- Card f-string, between `desc_preview` and the first body `ad.url`. -/
def cardLit7 : String := "\n            <a href=\""

/-- Card f-string, between the two body occurrences of `ad.url`. -/
def cardLit8 : String :=
  "\" style=\"color:#1a73e8;text-decoration:none;font-weight:700;\"> Read more</a>\n          </div>\n\n          <div style=\"margin-top:12px;\">\n            <a href=\""

/-- Card f-string, after the last `ad.url`. -/
def cardLit9 : String :=
  "\" style=\"display:inline-block;background:#1a73e8;color:#fff;text-decoration:none;padding:9px 10px;border-radius:10px;font-weight:800;font-size:12px;\">\n              View listing\n            </a>\n          </div>\n        </div>\n      </td></tr>\n    </table>\n    "

/-- `render_card` (lines 325-379). -/
def render_card (ad : AdDetail) : String :=
  let price := html_escape (pyOrD ad.price "Price N/A")
  let title := html_escape ad.title
  let loc := html_escape (ad.location.getD "")
  let posted := html_escape (ad.posted.getD "")
  let chips := pyJoin " &nbsp; " ((chips_from_text ad.title ad.description).map html_escape)
  let desc_preview := html_escape (truncate (ad.description.getD "") 260)
  let hero := match ad.images.head? with | some h => h | none => ""
  let hero_html :=
    if !(hero = "") then heroLitA ++ ad.url ++ heroLitB ++ hero ++ heroLitC
    else heroLitNone
  let meta := (if !(loc = "") then ["\uF8FF\u00FC\u00EC\u00E7 " ++ loc] else [])
    ++ (if !(posted = "") then [posted] else [])
  let meta_line := pyJoin " \u201A\u00C4\u00A2 " meta
  cardLit1 ++ hero_html ++ cardLit2 ++ price ++ cardLit3 ++ title
    ++ cardLit4 ++ html_escape meta_line ++ cardLit5 ++ chips
    ++ cardLit6 ++ desc_preview ++ cardLit7 ++ ad.url ++ cardLit8 ++ ad.url
    ++ cardLit9

/-- Row f-string of `build_digest_html` (lines 390-395), before `left`. -/
def rowLitA : String :=
  "\n        <tr>\n          <td width=\"50%\" valign=\"top\" style=\"padding:8px;\">"

/-- Row f-string, between `left` and `right`. -/
def rowLitB : String :=
  "</td>\n          <td width=\"50%\" valign=\"top\" style=\"padding:8px;\">"

/-- Row f-string, after `right`. -/
def rowLitC : String := "</td>\n        </tr>\n        "

/-- The row-pairing loop of `build_digest_html` (lines 386-395): cards two to
a row, an odd final card paired with the empty string. -/
def pairRows : List String → List String
  | [] => []
  | [l] => [rowLitA ++ l ++ rowLitB ++ rowLitC]
  | l :: r :: rest => (rowLitA ++ l ++ rowLitB ++ r ++ rowLitC) :: pairRows rest

/-- Header f-string of `build_digest_html` (lines 397-404), before the
count. -/
def headerLitA : String :=
  "\n    <div style=\"max-width:680px;margin:0 auto;padding:14px 10px;font-family:Arial,sans-serif;\">\n      <div style=\"font-size:20px;font-weight:900;color:#111;\">Barnstormers: "

/-- Header f-string, after the count. -/
def headerLitB : String :=
  " new listings</div>\n      <div style=\"font-size:12px;color:#666;margin-top:4px;\">\n        Marketplace-style cards (2-column on desktop, stacked on mobile). Tap \u201A\u00C4\u00FARead more\u201A\u00C4\u00F9 for full details.\n      </div>\n    </div>\n    "

/-- Digest f-string (lines 406-417), before `header`. -/
def digestLitA : String :=
  "<!doctype html>\n<html>\n  <body style=\"margin:0;background:#f6f7f9;\">\n    "

/-- Digest f-string, between `header` and the joined rows. -/
def digestLitB : String :=
  "\n    <table width=\"100%\" cellpadding=\"0\" cellspacing=\"0\" style=\"max-width:680px;margin:0 auto;\">\n      "

/-- Digest f-string, after the joined rows. -/
def digestLitC : String :=
  "\n    </table>\n    <div style=\"max-width:680px;margin:0 auto;padding:18px 10px;font-family:Arial,sans-serif;font-size:11px;color:#999;\">\n      barnstormers-feed \u201A\u00C4\u00A2 automated digest\n    </div>\n  </body>\n</html>"

/-- `build_digest_html` (lines 382-417). -/
def build_digest_html (details : List AdDetail) : String :=
  let items := details.take MAX_EMAIL_ITEMS
  let cards := items.map render_card
  let rows := pairRows cards
  let header := headerLitA ++ pyStrNat details.length ++ headerLitB
  digestLitA ++ header ++ digestLitB ++ pyJoin "" rows ++ digestLitC

/-! ### The run (`main`, lines 422-477)

`main`'s effects are modelled by explicit inputs: the contents of the URL
file (absent file raises), the seen file, the outcome of each `fetch` (one
map serves both listing fetches and enrichment fetches since the code uses
the same `fetch`; `none` means the request raised), and whether the SMTP
send succeeds.  The result is the run's outcome — an uncaught exception or
the exit code — paired with the final state of the seen file. -/

/-- A run's inputs. -/
structure RunEnv where
  urlsFile : Option (List String)
  seenFile : SeenFile
  fetchPage : String → Option ListingPage
  sendOk : Bool

/-- Uncaught exceptions a run can end with. -/
inductive RunErr where
  | urlsFileMissing : RunErr
  | seenFileCorrupt : RunErr
  | sendFailed : RunErr
deriving DecidableEq

/-- `read_urls` (lines 41-49) on the file's lines. -/
def read_urls (fileLines : List String) : List String :=
  (fileLines.map pyStrip).filter fun s => !(s = "") && !(pyStartswith s "#")

/-- `dict.update` on the insertion-ordered dictionary: existing keys keep
their position and take the new value, new keys are appended. -/
def dictSet (ads : AdDict) (k : String) (v : AdDetail) : AdDict :=
  if dictContains ads k then ads.map fun p => if p.1 = k then (k, v) else p
  else ads ++ [(k, v)]

/-- `all_ads.update(ads)`. -/
def dictUpdate (base upd : AdDict) : AdDict :=
  upd.foldl (fun acc p => dictSet acc p.1 p.2) base

/-- The enrich/compose/send/persist tail of `main` (lines 448-477), entered
with the loaded seen set and the non-empty, sorted new-ad list. -/
def runSendPhase (env : RunEnv) (seen : List String) (new_ads : List AdDetail) :
    Except RunErr Nat × SeenFile :=
  let details := (new_ads.take MAX_EMAIL_ITEMS).map fun ad =>
    if pyTruthyOpt ad.price && pyTruthyOpt ad.description
        && !ad.images.isEmpty then ad
    else
      match env.fetchPage ad.url with
      | none => ad
      | some page => enrich_from_classified_page ad page
  let _text_body := build_digest_text new_ads
  let _html_body := build_digest_html details
  if !env.sendOk then (.error .sendFailed, env.seenFile)
  else
    let trimmed := update_and_trim seen (new_ads.map AdDetail.ad_id) SEEN_CAP
    (.ok 0, some (.json (.list (trimmed.map PyJson.str))))

/-- `main` (lines 422-477). -/
def runMain (env : RunEnv) : Except RunErr Nat × SeenFile :=
  match env.urlsFile with
  | none => (.error .urlsFileMissing, env.seenFile)
  | some fileLines =>
    let urls := read_urls fileLines
    if urls.isEmpty then (.ok 2, env.seenFile)
    else
      match load_seen env.seenFile with
      | .error _ => (.error .seenFileCorrupt, env.seenFile)
      | .ok seen_list =>
        let seen := seen_list.dedup
        let all_ads := urls.foldl
          (fun acc url =>
            match env.fetchPage url with
            | none => acc
            | some page => dictUpdate acc (extract_ads_from_listing_page page))
          []
        let new_ads := (all_ads.filter fun p => !(seen.contains p.1)).map Prod.snd
        if new_ads.isEmpty then (.ok 0, env.seenFile)
        else runSendPhase env seen (sort_newest_first new_ads)

/-! ## Helper lemmas -/

theorem startsWith_dollar_prepend (t : String) : pyStartswith ("$" ++ t) "$" = true := by
  simp [pyStartswith, String.data_append, List.isPrefixOf]

theorem startsWith_append_left {s p : String} (h : pyStartswith s p = true)
    (r : String) : pyStartswith (s ++ r) p = true := by
  rw [pyStartswith, String.data_append, List.isPrefixOf_iff_prefix]
  rw [pyStartswith, List.isPrefixOf_iff_prefix] at h
  exact h.trans (List.prefix_append s.data r.data)

theorem containsSub_singleton_iff (c : Char) (cs : List Char) :
    containsSub [c] cs = true ↔ c ∈ cs := by
  induction cs with
  | nil =>
    simp [containsSub, List.isEmpty]
  | cons a t ih =>
    simp [containsSub, List.isPrefixOf, ih, beq_iff_eq]

theorem strIn_dot_append_cents (s : String) : strIn "." (s ++ ".00") = true := by
  have hd : ("." : String).data = ['.'] := rfl
  rw [strIn, hd, containsSub_singleton_iff, String.data_append]
  exact List.mem_append.mpr (Or.inr (by decide))

theorem strIn_dot_prepend {t : String} (h : strIn "." t = true) (p : String) :
    strIn "." (p ++ t) = true := by
  have hd : ("." : String).data = ['.'] := rfl
  rw [strIn, hd, containsSub_singleton_iff, String.data_append]
  rw [strIn, hd, containsSub_singleton_iff] at h
  exact List.mem_append.mpr (Or.inr h)

/-! ## C3: loading the seen-set file -/

/-- C3 (counterexample): with malformed (non-JSON) file content, `load_seen`
raises an uncaught `json.JSONDecodeError` instead of returning the empty
list — the claim's "never raises an error" fails. -/
theorem C3_cex :
    load_seen (some .malformed) = .error .jsonDecode
    ∧ load_seen (some .malformed) ≠ .ok [] := by
  constructor
  · rfl
  · intro h
    exact Except.noConfusion h

/-- C3 (amended): an absent file loads as the empty list; a JSON value that
is not a list loads as the empty list; a JSON list loads as its elements
converted to strings; malformed content raises a JSON decode error. -/
theorem C3_load_seen (st : SeenFile) :
    load_seen st =
      match st with
      | none => .ok []
      | some .malformed => .error .jsonDecode
      | some (.json (.list l)) => .ok (l.map pyStr)
      | some (.json _) => .ok [] := by
  match st with
  | none => rfl
  | some .malformed => rfl
  | some (.json v) => cases v <;> rfl

/-! ## C8: money normalisation -/

/-- C8 (counterexample): `"$5 "` is an input already prefixed with `'$'`, yet
`normalize_money` neither leaves it unchanged nor merely appends cents: the
trailing space is also stripped. -/
theorem C8_cex :
    normalize_money "$5 " = "$5.00"
    ∧ normalize_money "$5 " ≠ "$5 "
    ∧ normalize_money "$5 " ≠ "$5 " ++ ".00" := by
  refine ⟨by decide, by decide, by decide⟩

theorem mem_of_mem_stripList {c : Char} {cs : List Char}
    (h : c ∈ stripList cs) : c ∈ cs := by
  rw [stripList, List.mem_reverse] at h
  have h1 := (List.dropWhile_sublist isWsChar).subset h
  rw [List.mem_reverse] at h1
  exact (List.dropWhile_sublist isWsChar).subset h1

/-- C8 (amended): for every input whose whitespace-strip is non-empty, the
result has a leading `'$'`; when the input contains no `'.'` the result
ends in an appended `".00"`; an input that equals its whitespace-strip and
is already `'$'`-prefixed is returned unchanged apart from the appended
cents when it had no `'.'`; and the two concrete examples hold. -/
theorem C8_normalize_money (s : String) (hne : pyStrip s ≠ "") :
    pyStartswith (normalize_money s) "$" = true
    ∧ (strIn "." s = false → ∃ t, normalize_money s = t ++ ".00")
    ∧ (pyStrip s = s → pyStartswith s "$" = true →
        normalize_money s = if strIn "." s = true then s else s ++ ".00")
    ∧ normalize_money "1250" = "$1250.00"
    ∧ normalize_money "1,250.50" = "$1,250.50" := by
  have hbody : normalize_money s =
      (if pyStartswith (if strIn "." (pyStrip s) then pyStrip s
          else pyStrip s ++ ".00") "$" then
        (if strIn "." (pyStrip s) then pyStrip s else pyStrip s ++ ".00")
      else "$" ++ (if strIn "." (pyStrip s) then pyStrip s
          else pyStrip s ++ ".00")) := by
    rw [normalize_money]
    simp only [hne, if_neg, ite_false]
  refine ⟨?_, ?_, ?_, by decide, by decide⟩
  · rw [hbody]
    by_cases hd : pyStartswith (if strIn "." (pyStrip s) then pyStrip s
        else pyStrip s ++ ".00") "$" = true
    · rw [if_pos hd]
      exact hd
    · rw [if_neg hd]
      exact startsWith_dollar_prepend _
  · intro hdot
    have hdot' : strIn "." (pyStrip s) = false := by
      rw [← Bool.not_eq_true]
      intro hmem
      have h1 : '.' ∈ (pyStrip s).data :=
        (containsSub_singleton_iff '.' (pyStrip s).data).mp hmem
      have h2 : '.' ∈ s.data := mem_of_mem_stripList h1
      have h3 : strIn "." s = true :=
        (containsSub_singleton_iff '.' s.data).mpr h2
      rw [h3] at hdot
      exact absurd hdot (by decide)
    rw [hbody, hdot']
    simp only [Bool.false_eq_true, if_false]
    by_cases hdol : pyStartswith (pyStrip s ++ ".00") "$" = true
    · rw [if_pos hdol]
      exact ⟨pyStrip s, rfl⟩
    · rw [if_neg hdol]
      exact ⟨"$" ++ pyStrip s, (String.append_assoc "$" (pyStrip s) ".00").symm⟩
  · intro hstrip hdol
    rw [hbody, hstrip]
    by_cases hdot : strIn "." s = true
    · simp only [hdot, if_true, ite_true]
      rw [if_pos hdol]
    · simp only [Bool.not_eq_true] at hdot
      simp only [hdot, Bool.false_eq_true, if_false]
      rw [if_pos (startsWith_append_left hdol ".00")]

/-- C8 witness: the amended statement applied at the non-stripped input
`" 1250"` (leading-dollar clause) and the stripped `'$'`-prefixed input
`"$1,250.50"` (unchanged-apart-from-cents clause). -/
theorem C8_normalize_money_witness :
    pyStrip " 1250" ≠ ""
    ∧ pyStartswith (normalize_money " 1250") "$" = true
    ∧ pyStrip "$1,250.50" = "$1,250.50"
    ∧ normalize_money "$1,250.50" =
        (if strIn "." "$1,250.50" = true then "$1,250.50"
          else "$1,250.50" ++ ".00") :=
  ⟨by decide, (C8_normalize_money " 1250" (by decide)).1, by decide,
    (C8_normalize_money "$1,250.50" (by decide)).2.2.1 (by decide) (by decide)⟩

/-! ## C9: truncation -/

/-- C9 (counterexample): source line 298 appends the three-character
sequence U+201A U+00C4 U+00B6, not a single ellipsis character, so the
claim's example `truncate("abcdefgh", 5) = "abcd…"` fails; and at maximum
length `n = 0` the Python slice `s[: n - 1]` is `s[:-1]`, which keeps all
but the last character rather than an empty prefix. -/
theorem C9_cex :
    truncate "abcdefgh" 5 = "abcd\u201A\u00C4\u00B6"
    ∧ truncate "abcdefgh" 5 ≠ "abcd…"
    ∧ truncate "ab" 0 = "a\u201A\u00C4\u00B6"
    ∧ truncate "ab" 0 ≠ "\u201A\u00C4\u00B6" := by
  refine ⟨by decide, by decide, by decide, by decide⟩

/-- C9 (amended): for every maximum length `n ≥ 1`, a string of length at
most `n` is returned unchanged, and a longer string is cut to its first
`n - 1` characters, right-stripped, with the marker of source line 298 —
the three-character sequence U+201A U+00C4 U+00B6 — appended; the concrete
examples hold with that marker. -/
theorem C9_truncate (s : String) (n : Nat) (hn : 1 ≤ n) :
    (s.length ≤ n → truncate s n = s)
    ∧ (n < s.length →
        truncate s n = pyRstrip ⟨s.data.take (n - 1)⟩ ++ "\u201A\u00C4\u00B6")
    ∧ truncate "abcdefgh" 5 = "abcd\u201A\u00C4\u00B6"
    ∧ truncate "ab" 5 = "ab" := by
  refine ⟨?_, ?_, by decide, by decide⟩
  · intro h
    rw [truncate, if_pos h]
  · intro h
    rw [truncate, if_neg (by omega)]
    have h0 : (0 : Int) ≤ (n : Int) - 1 := by omega
    rw [pySliceTo, if_pos h0]
    have : ((n : Int) - 1).toNat = n - 1 := by omega
    rw [this]

/-- C9 witness: the amended statement applied at `("abcdefgh", 5)`. -/
theorem C9_truncate_witness :
    truncate "abcdefgh" 5
      = pyRstrip ⟨"abcdefgh".data.take (5 - 1)⟩ ++ "\u201A\u00C4\u00B6"
    ∧ truncate "ab" 5 = "ab" :=
  ⟨(C9_truncate "abcdefgh" 5 (by decide)).2.1 (by decide),
    (C9_truncate "ab" 5 (by decide)).1 (by decide)⟩

/-! ## C10: idempotence of money normalisation -/

theorem head_of_startsWith_dollar {r : String} (h : pyStartswith r "$" = true) :
    r.data.head? = some '$' := by
  rw [pyStartswith, List.isPrefixOf_iff_prefix] at h
  obtain ⟨tl, htl⟩ := h
  rw [← htl]
  rfl

theorem stripList_getLast_not_ws {cs : List Char} {c : Char}
    (h : (stripList cs).getLast? = some c) : isWsChar c = false := by
  rw [stripList, List.getLast?_reverse] at h
  have hmatch := List.head?_dropWhile_not isWsChar ((cs.dropWhile isWsChar).reverse)
  rw [h] at hmatch
  exact hmatch

theorem stripList_eq_self {cs : List Char}
    (h1 : ∀ c, cs.head? = some c → isWsChar c = false)
    (h2 : ∀ c, cs.getLast? = some c → isWsChar c = false) :
    stripList cs = cs := by
  have e1 : cs.dropWhile isWsChar = cs := by
    cases cs with
    | nil => rfl
    | cons a t =>
      rw [List.dropWhile_cons, if_neg]
      rw [h1 a rfl]
      simp
  rw [stripList, e1]
  have e2 : cs.reverse.dropWhile isWsChar = cs.reverse := by
    cases hr : cs.reverse with
    | nil => rfl
    | cons a t =>
      rw [List.dropWhile_cons, if_neg]
      have hl : cs.getLast? = some a := by
        rw [← List.head?_reverse, hr]
        rfl
      rw [h2 a hl]
      simp
  rw [e2, List.reverse_reverse]

/-- C10: `normalize_money` is idempotent. -/
theorem C10_normalize_money_idem (s : String) :
    normalize_money (normalize_money s) = normalize_money s := by
  by_cases h0 : pyStrip s = ""
  · have h1 : normalize_money s = "" := by
      rw [normalize_money, h0]
      decide
    rw [h1]
    decide
  · -- the stripped input is non-empty; name the two staged values
    have hbody : normalize_money s =
        (if pyStartswith (if strIn "." (pyStrip s) then pyStrip s
            else pyStrip s ++ ".00") "$" then
          (if strIn "." (pyStrip s) then pyStrip s else pyStrip s ++ ".00")
        else "$" ++ (if strIn "." (pyStrip s) then pyStrip s
            else pyStrip s ++ ".00")) := by
      rw [normalize_money]
      simp only [h0, if_neg, ite_false]
    set t1 : String := if strIn "." (pyStrip s) then pyStrip s
      else pyStrip s ++ ".00" with ht1
    set r : String := normalize_money s with hr
    -- the staged value is non-empty and carries the dot and a clean tail
    have ht1ne : t1.data ≠ [] := by
      rw [ht1]
      split
      · intro hc
        exact h0 (String.ext hc)
      · rw [String.data_append]
        intro hc
        have := congrArg List.length hc
        simp at this
    have ht1dot : strIn "." t1 = true := by
      rw [ht1]
      by_cases hdot : strIn "." (pyStrip s) = true
      · rw [if_pos hdot]
        exact hdot
      · rw [if_neg hdot]
        exact strIn_dot_append_cents (pyStrip s)
    have ht1last : ∀ c, t1.data.getLast? = some c → isWsChar c = false := by
      intro c hc
      rw [ht1] at hc
      by_cases hdot : strIn "." (pyStrip s) = true
      · rw [if_pos hdot] at hc
        exact stripList_getLast_not_ws hc
      · rw [if_neg hdot, String.data_append] at hc
        rw [List.getLast?_append] at hc
        have : (".00" : String).data.getLast? = some '0' := rfl
        rw [this] at hc
        simp only [Option.or_some, Option.some.injEq] at hc
        rw [← hc]
        rfl
    -- the final value starts with the dollar sign
    have hrdollar : pyStartswith r "$" = true := by
      rw [hbody]
      by_cases hd : pyStartswith t1 "$" = true
      · rw [if_pos hd]
        exact hd
      · rw [if_neg hd]
        exact startsWith_dollar_prepend t1
    have hrhead : r.data.head? = some '$' := head_of_startsWith_dollar hrdollar
    have hrne : r ≠ "" := by
      intro hc
      rw [hc] at hrhead
      exact Option.noConfusion hrhead
    have hrdot : strIn "." r = true := by
      rw [hbody]
      by_cases hd : pyStartswith t1 "$" = true
      · rw [if_pos hd]
        exact ht1dot
      · rw [if_neg hd]
        exact strIn_dot_prepend ht1dot "$"
    have hrlast : ∀ c, r.data.getLast? = some c → isWsChar c = false := by
      intro c hc
      rw [hbody] at hc
      by_cases hd : pyStartswith t1 "$" = true
      · rw [if_pos hd] at hc
        exact ht1last c hc
      · rw [if_neg hd, String.data_append, List.getLast?_append] at hc
        cases hl : t1.data.getLast? with
        | none =>
          exact absurd (List.getLast?_eq_none_iff.mp hl) ht1ne
        | some b =>
          rw [hl] at hc
          simp only [Option.or_some, Option.some.injEq] at hc
          rw [← hc]
          exact ht1last b hl
    have hrstrip : pyStrip r = r := by
      have : stripList r.data = r.data :=
        stripList_eq_self
          (fun c hc => by
            rw [hrhead] at hc
            injection hc with hc
            rw [← hc]
            rfl)
          hrlast
      rw [pyStrip, this]
  -- second application returns the value unchanged
    rw [normalize_money]
    simp only [hrstrip, hrne, if_neg, ite_false, hrdot, if_true, ite_true,
      hrdollar]

/-! ## C4: seen-set union and trim -/

/-- C4: `update_and_trim` returns exactly `min cap |union|` entries, sorted
by descending numeric value, all drawn from the union, and every excluded
member of the union is numerically at most every returned entry. -/
theorem C4_update_and_trim (seen newly : List String) (cap : Nat)
    (_hdig : ∀ s ∈ seen ++ newly, isDigitStr s = true) :
    (update_and_trim seen newly cap).length = min cap ((seen ++ newly).dedup).length
    ∧ List.Pairwise (fun a b => intVal b ≤ intVal a) (update_and_trim seen newly cap)
    ∧ (∀ x ∈ update_and_trim seen newly cap, x ∈ (seen ++ newly).dedup)
    ∧ (∀ x ∈ (seen ++ newly).dedup, x ∉ update_and_trim seen newly cap →
        ∀ y ∈ update_and_trim seen newly cap, intVal x ≤ intVal y) := by
  set u : List String := (seen ++ newly).dedup with hu
  set le : String → String → Bool := fun a b => decide (intVal b ≤ intVal a) with hle
  have hperm := List.mergeSort_perm u le
  have hsorted : List.Pairwise (fun a b => le a b = true) (u.mergeSort le) :=
    List.sorted_mergeSort
      (fun a b c hab hbc => by
        simp only [hle, decide_eq_true_eq] at hab hbc ⊢
        omega)
      (fun a b => by
        simp only [hle, Bool.or_eq_true, decide_eq_true_eq]
        omega)
      u
  have hut : update_and_trim seen newly cap = (u.mergeSort le).take cap := rfl
  refine ⟨?_, ?_, ?_, ?_⟩
  · rw [hut, List.length_take, List.length_mergeSort]
  · rw [hut]
    refine List.Pairwise.sublist (List.take_sublist cap _) ?_
    refine hsorted.imp ?_
    intro a b hab
    simp only [hle, decide_eq_true_eq] at hab
    exact hab
  · intro x hx
    rw [hut] at hx
    exact hperm.mem_iff.mp ((List.take_sublist cap _).subset hx)
  · intro x hxu hxnot y hy
    rw [hut] at hxnot hy
    have hx' : x ∈ u.mergeSort le := hperm.mem_iff.mpr hxu
    rw [← List.take_append_drop cap (u.mergeSort le)] at hx'
    rcases List.mem_append.mp hx' with hxt | hxd
    · exact absurd hxt hxnot
    · have hpair := hsorted
      rw [← List.take_append_drop cap (u.mergeSort le)] at hpair
      have hcross := (List.pairwise_append.mp hpair).2.2 y hy x hxd
      simp only [hle, decide_eq_true_eq] at hcross
      exact hcross

/-- C4 witness: the theorem applied at a small concrete union and cap. -/
theorem C4_update_and_trim_witness :
    (∀ s ∈ (["5", "30"] ++ ["7", "100"] : List String), isDigitStr s = true)
    ∧ (update_and_trim ["5", "30"] ["7", "100"] 3).length
        = min 3 ((["5", "30"] ++ ["7", "100"] : List String).dedup).length :=
  ⟨by decide, (C4_update_and_trim ["5", "30"] ["7", "100"] 3 (by decide)).1⟩

/-! ## C6: enrichment merge -/

/-- C6: enrichment always preserves `id` and `url`; with no matching
container, or an unparseable one, the ad is returned unchanged; with a
parsed container every other field takes the freshly parsed value when that
value is non-empty and otherwise the original ad's value. -/
theorem C6_enrich (ad : AdDetail) (page : ListingPage) :
    (enrich_from_classified_page ad page).ad_id = ad.ad_id
    ∧ (enrich_from_classified_page ad page).url = ad.url
    ∧ (page.containers.find? (fun d => d.adid = some ad.ad_id) = none →
        enrich_from_classified_page ad page = ad)
    ∧ (∀ d, page.containers.find? (fun d => d.adid = some ad.ad_id) = some d →
        (parse_classified_single d = none → enrich_from_classified_page ad page = ad)
        ∧ (∀ parsed, parse_classified_single d = some parsed →
            enrich_from_classified_page ad page =
              { ad_id := ad.ad_id
                title := pyOrS parsed.title ad.title
                url := ad.url
                price := pyOrOpt parsed.price ad.price
                location := pyOrOpt parsed.location ad.location
                posted := pyOrOpt parsed.posted ad.posted
                description := pyOrOpt parsed.description ad.description
                images := pyOrList parsed.images ad.images })) := by
  cases hf : page.containers.find? (fun d => d.adid = some ad.ad_id) with
  | none =>
    have he : enrich_from_classified_page ad page = ad := by
      simp only [enrich_from_classified_page, hf]
    refine ⟨by rw [he], by rw [he], fun _ => he, ?_⟩
    intro d hd
    exact Option.noConfusion hd
  | some d0 =>
    cases hp : parse_classified_single d0 with
    | none =>
      have he : enrich_from_classified_page ad page = ad := by
        simp only [enrich_from_classified_page, hf, hp]
      refine ⟨by rw [he], by rw [he], fun hc => Option.noConfusion hc, ?_⟩
      intro d hd
      have hdd : d0 = d := by injection hd
      subst hdd
      exact ⟨fun _ => he, fun parsed hps => Option.noConfusion (hp.symm.trans hps)⟩
    | some parsed0 =>
      have he : enrich_from_classified_page ad page =
          { ad_id := ad.ad_id
            title := pyOrS parsed0.title ad.title
            url := ad.url
            price := pyOrOpt parsed0.price ad.price
            location := pyOrOpt parsed0.location ad.location
            posted := pyOrOpt parsed0.posted ad.posted
            description := pyOrOpt parsed0.description ad.description
            images := pyOrList parsed0.images ad.images } := by
        simp only [enrich_from_classified_page, hf, hp]
      refine ⟨by rw [he], by rw [he], fun hc => Option.noConfusion hc, ?_⟩
      intro d hd
      have hdd : d0 = d := by injection hd
      subst hdd
      refine ⟨fun hc => Option.noConfusion (hp.symm.trans hc), ?_⟩
      intro parsed hps
      have hpp : parsed0 = parsed := by
        have hsame := hp.symm.trans hps
        injection hsame
      subst hpp
      exact he

/-- The container used by the C6 witness. -/
def c6Div : ClassifiedDiv :=
  { adid := some "12"
    header := some { href := some "/x", text := "abc" }
    bodySpan := none
    divText := ""
    contactSpan := none
    thumbSrcs := [] }

/-- The partially filled ad used by the C6 witness. -/
def c6Ad : AdDetail :=
  { ad_id := "12", title := "old", url := "u", price := some "$1.00" }

/-- C6 witness: the theorem applied to a concrete ad and single-container
page; the merge keeps the parsed title and falls back to the original
price. -/
theorem C6_enrich_witness :
    enrich_from_classified_page c6Ad { containers := [c6Div], anchors := [] } =
      { ad_id := "12", title := "abc", url := "u", price := some "$1.00",
        location := none, posted := none, description := none, images := [] } := by
  have h := ((C6_enrich c6Ad { containers := [c6Div], anchors := [] }).2.2.2
    c6Div (by decide)).2
    { ad_id := "12", title := "abc", url := "https://www.barnstormers.com/x" }
    (by decide)
  exact h.trans (by decide)

/-! ## C7: the fallback scan and its minimal records -/

theorem fallbackStep_mem {acc : AdDict} {a : PageAnchor} {e : String × AdDetail}
    (he : e ∈ fallbackStep acc a) :
    e ∈ acc
    ∨ (e.2.price = none ∧ e.2.location = none ∧ e.2.posted = none
        ∧ e.2.description = none ∧ e.2.images = ([] : List String)) := by
  rw [fallbackStep] at he
  split at he
  · exact Or.inl he
  · dsimp only at he
    split at he
    · exact Or.inl he
    · split at he
      · exact Or.inl he
      · split at he
        · exact Or.inl he
        · rcases List.mem_append.mp he with h | h
          · exact Or.inl h
          · rcases List.mem_singleton.mp h with rfl
            exact Or.inr ⟨rfl, rfl, rfl, rfl, rfl⟩

theorem fallbackScan_mem {anchors : List PageAnchor} {acc : AdDict}
    {e : String × AdDetail} (he : e ∈ fallbackScan anchors acc) :
    e ∈ acc
    ∨ (e.2.price = none ∧ e.2.location = none ∧ e.2.posted = none
        ∧ e.2.description = none ∧ e.2.images = ([] : List String)) := by
  induction anchors generalizing acc with
  | nil => exact Or.inl he
  | cons a rest ih =>
    have he' : e ∈ fallbackScan rest (fallbackStep acc a) := he
    rcases ih he' with h | h
    · exact fallbackStep_mem h
    · exact Or.inr h

/-- C7: the fallback link scan contributes only when the structured scan
yields nothing for the whole page (otherwise the mapping is exactly the
structured scan's), and every record of the fallback path carries no price,
location, posted date, description, or images. -/
theorem C7_fallback (p : ListingPage) :
    (structScan p ≠ [] → extract_ads_from_listing_page p = structScan p)
    ∧ (structScan p = [] →
        extract_ads_from_listing_page p = fallbackScan p.anchors []
        ∧ ∀ e ∈ extract_ads_from_listing_page p,
            e.2.price = none ∧ e.2.location = none ∧ e.2.posted = none
            ∧ e.2.description = none ∧ e.2.images = ([] : List String)) := by
  constructor
  · intro hne
    rw [extract_ads_from_listing_page]
    rw [if_neg]
    simp only [List.isEmpty_iff]
    exact hne
  · intro hz
    have hext : extract_ads_from_listing_page p = fallbackScan p.anchors [] := by
      rw [extract_ads_from_listing_page, hz]
      rfl
    refine ⟨hext, ?_⟩
    intro e he
    rw [hext] at he
    rcases fallbackScan_mem he with h | h
    · exact absurd h (List.not_mem_nil e)
    · exact h

/-- The page used by the C7 witness: no parseable container, two fallback
anchors of which one has a too-short title. -/
def c7Page : ListingPage :=
  { containers := []
    anchors := [
      { href := "/classified-555-x.html", text := "Great plane" },
      { href := "/classified-777-y.html", text := "ab" }] }

/-- C7 witness: the theorem applied to the concrete fallback-only page. -/
theorem C7_fallback_witness :
    extract_ads_from_listing_page c7Page = fallbackScan c7Page.anchors []
    ∧ (extract_ads_from_listing_page c7Page).length = 1
    ∧ ("555",
        ({ ad_id := "555", title := "Great plane",
           url := "https://www.barnstormers.com/classified-555-x.html" } : AdDetail)).2.price
        = none := by
  refine ⟨((C7_fallback c7Page).2 (by decide)).1, by decide, ?_⟩
  exact (((C7_fallback c7Page).2 (by decide)).2
    ("555",
      { ad_id := "555", title := "Great plane",
        url := "https://www.barnstormers.com/classified-555-x.html" })
    (by decide)).1

/-! ## C1: per-container extraction -/

theorem extract_single (d : ClassifiedDiv) :
    extract_ads_from_listing_page { containers := [d], anchors := [] } =
      match parse_classified_single d with
      | some ad => [(ad.ad_id, ad)]
      | none => [] := by
  cases hA : d.adid with
  | none =>
    have hp : parse_classified_single d = none := by
      rw [parse_classified_single, hA]
      rfl
    rw [hp, extract_ads_from_listing_page, structScan]
    simp [hA, fallbackScan]
  | some aid =>
    have hfil : ({ containers := [d], anchors := [] } : ListingPage).containers.filter
        (fun d => d.adid.isSome) = [d] := by
      simp [hA]
    cases hp : parse_classified_single d with
    | none =>
      rw [extract_ads_from_listing_page, structScan, hfil]
      simp [hp, fallbackScan]
    | some ad =>
      rw [extract_ads_from_listing_page, structScan, hfil]
      simp [hp, dictContains]

/-- Shape of `parse_classified_single`: either the guards fail and it
returns `none`, or all guards pass and it returns the record with the
stripped id and normalised url and title. -/
theorem parse_shape (d : ClassifiedDiv) :
    (parse_classified_single d = none
      ∧ ¬(isDigitStr (pyStrip (d.adid.getD "")) = true
          ∧ ∃ a, d.header = some a ∧ a.href.getD "" ≠ ""
              ∧ 3 ≤ (wsNorm a.text).length))
    ∨ (∃ a pr lo po de im,
        d.header = some a
        ∧ isDigitStr (pyStrip (d.adid.getD "")) = true
        ∧ a.href.getD "" ≠ ""
        ∧ 3 ≤ (wsNorm a.text).length
        ∧ parse_classified_single d =
            some { ad_id := pyStrip (d.adid.getD "")
                   title := wsNorm a.text
                   url := normalize_url (a.href.getD "")
                   price := pr, location := lo, posted := po
                   description := de, images := im }) := by
  by_cases hid : isDigitStr (pyStrip (d.adid.getD "")) = true
  · cases hh : d.header with
    | none =>
      refine Or.inl ⟨?_, ?_⟩
      · rw [parse_classified_single, hh]
        rw [if_neg]
        simp [hid]
      · rintro ⟨-, a, ha, -⟩
        exact Option.noConfusion ha
    | some a =>
      by_cases hhref : a.href.getD "" = ""
      · refine Or.inl ⟨?_, ?_⟩
        · rw [parse_classified_single, hh]
          rw [if_neg]
          · dsimp only
            rw [if_pos hhref]
          · simp [hid]
        · rintro ⟨-, a', ha', hne, -⟩
          injection ha' with ha'
          exact hne (ha' ▸ hhref)
      · by_cases htitle : (wsNorm a.text).length < 3
        · refine Or.inl ⟨?_, ?_⟩
          · rw [parse_classified_single, hh]
            rw [if_neg]
            · dsimp only
              rw [if_neg hhref, if_pos htitle]
            · simp [hid]
          · rintro ⟨-, a', ha', -, hlen⟩
            injection ha' with ha'
            rw [← ha'] at hlen
            omega
        · refine Or.inr ⟨a, ?_⟩
          have hp : ∃ pr lo po de im, parse_classified_single d =
              some { ad_id := pyStrip (d.adid.getD "")
                     title := wsNorm a.text
                     url := normalize_url (a.href.getD "")
                     price := pr, location := lo, posted := po
                     description := de, images := im } := by
            rw [parse_classified_single, hh]
            rw [if_neg]
            · dsimp only
              rw [if_neg hhref, if_neg htitle]
              exact ⟨_, _, _, _, _, rfl⟩
            · simp [hid]
          obtain ⟨pr, lo, po, de, im, hp⟩ := hp
          exact ⟨pr, lo, po, de, im, rfl, hid, hhref, by omega, hp⟩
  · refine Or.inl ⟨?_, ?_⟩
    · rw [parse_classified_single]
      rw [if_pos]
      simp [hid]
    · rintro ⟨hcontra, -⟩
      exact hid hcontra

/-- C1 (amended): a container yields a record if and only if the
whitespace-stripped id attribute is numeric, a header anchor with a
non-empty link is present, and the whitespace-normalised title has at least
3 characters; the record's id is the stripped attribute and its url the
normalised header link; and a page holding exactly that container (and no
anchors) extracts exactly that one record. -/
theorem C1_parse (d : ClassifiedDiv) :
    ((parse_classified_single d).isSome = true ↔
      (isDigitStr (pyStrip (d.adid.getD "")) = true
        ∧ ∃ a, d.header = some a ∧ a.href.getD "" ≠ ""
            ∧ 3 ≤ (wsNorm a.text).length))
    ∧ (∀ ad, parse_classified_single d = some ad →
        ad.ad_id = pyStrip (d.adid.getD "")
        ∧ ∀ a, d.header = some a → ad.url = normalize_url (a.href.getD ""))
    ∧ (extract_ads_from_listing_page { containers := [d], anchors := [] } =
        match parse_classified_single d with
        | some ad => [(ad.ad_id, ad)]
        | none => []) := by
  refine ⟨?_, ?_, extract_single d⟩
  · rcases parse_shape d with ⟨hp, hcond⟩ | ⟨a, pr, lo, po, de, im, hh, hid, hhref, hlen, hp⟩
    · rw [hp]
      simp only [Option.isSome_none, Bool.false_eq_true, false_iff]
      exact hcond
    · rw [hp]
      simp only [Option.isSome_some, true_iff]
      exact ⟨hid, a, hh, hhref, hlen⟩
  · intro ad had
    rcases parse_shape d with ⟨hp, -⟩ | ⟨a, pr, lo, po, de, im, hh, -, -, -, hp⟩
    · rw [hp] at had
      exact Option.noConfusion had
    · rw [hp] at had
      injection had with had
      refine ⟨by rw [← had], ?_⟩
      intro a' ha'
      rw [hh] at ha'
      injection ha' with ha'
      rw [← had, ← ha']

/-- The container used by the C1 counterexample. -/
def c1CexDiv : ClassifiedDiv :=
  { adid := some " 123 "
    header := some { href := some "/x", text := "abc" }
    bodySpan := none
    divText := ""
    contactSpan := none
    thumbSrcs := [] }

/-- C1 (counterexample): an attribute value `" 123 "` is not numeric in the
claim's sense (`str.isdigit` is false for it), yet the container yields a
record — and the record's id is the stripped `"123"`, which differs from the
attribute value. -/
theorem C1_cex :
    isDigitStr (c1CexDiv.adid.getD "") = false
    ∧ parse_classified_single c1CexDiv =
        some { ad_id := "123", title := "abc",
               url := "https://www.barnstormers.com/x" }
    ∧ c1CexDiv.adid ≠ some "123" := by
  refine ⟨by decide, by decide, by decide⟩

/-- The valid container used by the C1 witness. -/
def c1WitDiv : ClassifiedDiv :=
  { adid := some "77"
    header := some { href := some "/y", text := "RV-7A nice" }
    bodySpan := none
    divText := ""
    contactSpan := none
    thumbSrcs := [] }

/-- C1 witness: the amended statement applied to a concrete valid
container. -/
theorem C1_parse_witness :
    (parse_classified_single c1WitDiv).isSome = true
    ∧ ({ ad_id := "77", title := "RV-7A nice",
          url := "https://www.barnstormers.com/y" } : AdDetail).ad_id
        = pyStrip (c1WitDiv.adid.getD "") :=
  ⟨(C1_parse c1WitDiv).1.mpr
      ⟨by decide, ⟨{ href := some "/y", text := "RV-7A nice" }, rfl, by decide, by decide⟩⟩,
    ((C1_parse c1WitDiv).2.1
      { ad_id := "77", title := "RV-7A nice",
        url := "https://www.barnstormers.com/y" } (by decide)).1⟩

/-! ## C5: HTML escaping in the rendered digest -/

/-- After an ampersand, one of the three escape tails must follow. -/
def escTail (cs : List Char) : Bool :=
  "amp;".data.isPrefixOf cs || "lt;".data.isPrefixOf cs || "gt;".data.isPrefixOf cs

/-- A character list is well-escaped when it holds no raw `<` or `>` and
every `&` opens one of the sequences `&amp;`, `&lt;`, `&gt;`. -/
def wellEscaped : List Char → Bool
  | [] => true
  | c :: rest =>
    if c = '&' then escTail rest && wellEscaped rest
    else if c = '<' || c = '>' then false
    else wellEscaped rest

theorem replaceChar_append (p : Char) (rep a b : List Char) :
    replaceChar p rep (a ++ b) = replaceChar p rep a ++ replaceChar p rep b := by
  induction a with
  | nil => rfl
  | cons c t ih =>
    have hc : (c :: t) ++ b = c :: (t ++ b) := rfl
    rw [hc, replaceChar, replaceChar, ih, List.append_assoc]

/-- The escape expansion of a single character. -/
def escChar (c : Char) : List Char :=
  replaceChar '>' "&gt;".data
    (replaceChar '<' "&lt;".data
      (replaceChar '&' "&amp;".data [c]))

theorem escL_cons (c : Char) (cs : List Char) :
    escL (c :: cs) = escChar c ++ escL cs := by
  have h1 : replaceChar '&' "&amp;".data (c :: cs)
      = replaceChar '&' "&amp;".data [c] ++ replaceChar '&' "&amp;".data cs := by
    simp only [replaceChar, List.append_assoc, List.append_nil]
  rw [escL, h1, replaceChar_append, replaceChar_append]
  rfl

theorem wellEscaped_amp (r : List Char) :
    wellEscaped ('&' :: 'a' :: 'm' :: 'p' :: ';' :: r) = wellEscaped r := by
  simp [wellEscaped, escTail, List.isPrefixOf]

theorem wellEscaped_lt (r : List Char) :
    wellEscaped ('&' :: 'l' :: 't' :: ';' :: r) = wellEscaped r := by
  simp [wellEscaped, escTail, List.isPrefixOf]

theorem wellEscaped_gt (r : List Char) :
    wellEscaped ('&' :: 'g' :: 't' :: ';' :: r) = wellEscaped r := by
  simp [wellEscaped, escTail, List.isPrefixOf]

theorem wellEscaped_escChar (c : Char) (r : List Char) :
    wellEscaped (escChar c ++ r) = wellEscaped r := by
  by_cases h1 : c = '&'
  · subst h1
    exact wellEscaped_amp r
  · by_cases h2 : c = '<'
    · subst h2
      exact wellEscaped_lt r
    · by_cases h3 : c = '>'
      · subst h3
        exact wellEscaped_gt r
      · have hc : escChar c = [c] := by
          simp [escChar, replaceChar, h1, h2, h3]
        rw [hc]
        simp [wellEscaped, h1, h2, h3]

theorem wellEscaped_escL (cs : List Char) : wellEscaped (escL cs) = true := by
  induction cs with
  | nil => rfl
  | cons c t ih => rw [escL_cons, wellEscaped_escChar, ih]

/-- The ad used by the C5 counterexample: its URL holds raw `<` and `&`. -/
def c5Ad : AdDetail :=
  { ad_id := "7", title := "Nice Plane", url := "http://e/x<y&z" }

set_option maxRecDepth 200000 in
/-- C5 (counterexample): the rendered HTML digest embeds the ad's URL
verbatim, so the URL's `<` and `&` appear unescaped in the output (the
escaped form would be `"x&lt;y&amp;z"`). -/
theorem C5_cex :
    strIn "x<y&z" (build_digest_html [c5Ad]) = true
    ∧ html_escape "x<y&z" = "x&lt;y&amp;z"
    ∧ ("x<y&z" : String) ≠ "x&lt;y&amp;z" := by
  refine ⟨by decide, by decide, by decide⟩

/-- C5 (amended): every user-sourced text except the URL and the image URLs
— title, price, location, posted date, description preview, and chips — is
embedded through `html_escape`, whose output is well-escaped (no raw `<` or
`>`, every `&` opening an escape sequence); the ad's URL and hero image URL
are embedded verbatim. -/
theorem C5_escaping (ad : AdDetail) (s : String) :
    wellEscaped (html_escape s).data = true
    ∧ render_card ad =
        cardLit1
        ++ (if !((match ad.images.head? with | some h => h | none => "") = "") then
              heroLitA ++ ad.url ++ heroLitB
                ++ (match ad.images.head? with | some h => h | none => "")
                ++ heroLitC
            else heroLitNone)
        ++ cardLit2 ++ html_escape (pyOrD ad.price "Price N/A")
        ++ cardLit3 ++ html_escape ad.title
        ++ cardLit4
        ++ html_escape (pyJoin " \u201A\u00C4\u00A2 "
              ((if !(html_escape (ad.location.getD "") = "") then
                  ["\uF8FF\u00FC\u00EC\u00E7 " ++ html_escape (ad.location.getD "")] else [])
                ++ (if !(html_escape (ad.posted.getD "") = "") then
                  [html_escape (ad.posted.getD "")] else [])))
        ++ cardLit5
        ++ pyJoin " &nbsp; " ((chips_from_text ad.title ad.description).map html_escape)
        ++ cardLit6 ++ html_escape (truncate (ad.description.getD "") 260)
        ++ cardLit7 ++ ad.url ++ cardLit8 ++ ad.url ++ cardLit9 :=
  ⟨wellEscaped_escL s.data, rfl⟩

/-! ## C2: the seen-set is persisted only after a successful send -/

/-- C2: when the send fails the run ends with the uncaught mail exception
and the persisted seen file is untouched; conversely the seen file changes
only in a run whose send succeeded and which finished with exit code 0. -/
theorem runSendPhase_cases (env : RunEnv) (seen : List String)
    (new_ads : List AdDetail) :
    (runSendPhase env seen new_ads).2 = env.seenFile
    ∨ (env.sendOk = true ∧ (runSendPhase env seen new_ads).1 = Except.ok 0) := by
  by_cases hs : env.sendOk = true
  · refine Or.inr ⟨hs, ?_⟩
    simp [runSendPhase, hs]
  · refine Or.inl ?_
    simp only [Bool.not_eq_true] at hs
    simp [runSendPhase, hs]

theorem C2_seen_persisted_only_after_send (env : RunEnv) :
    (env.sendOk = false → (runMain env).2 = env.seenFile)
    ∧ ((runMain env).2 ≠ env.seenFile →
        env.sendOk = true ∧ (runMain env).1 = Except.ok 0) := by
  have h : (runMain env).2 = env.seenFile
      ∨ (env.sendOk = true ∧ (runMain env).1 = Except.ok 0) := by
    rw [runMain]
    cases env.urlsFile with
    | none => exact Or.inl rfl
    | some fileLines =>
      by_cases hurls : (read_urls fileLines).isEmpty = true
      · refine Or.inl ?_
        simp [hurls]
      · cases hload : load_seen env.seenFile with
        | error e =>
          refine Or.inl ?_
          simp [hurls]
        | ok seen_list =>
          simp only [hurls, if_false, Bool.false_eq_true]
          split
          · exact Or.inl rfl
          · exact runSendPhase_cases env _ _
  constructor
  · intro hs
    rcases h with h | ⟨ht, -⟩
    · exact h
    · rw [hs] at ht
      exact absurd ht (by decide)
  · intro hne
    rcases h with h | h
    · exact absurd h hne
    · exact h

/-- The run inputs used by the C2 witness: one URL, failing send. -/
def c2Env : RunEnv :=
  { urlsFile := some ["https://u"]
    seenFile := none
    fetchPage := fun _ => none
    sendOk := false }

/-- C2 witness: the theorem applied to a concrete failing-send run. -/
theorem C2_witness : c2Env.sendOk = false ∧ (runMain c2Env).2 = c2Env.seenFile :=
  ⟨rfl, (C2_seen_persisted_only_after_send c2Env).1 rfl⟩

end Scraper
